import Mathlib

/-!
Verification of the earthquake-visualizer core pipeline
(`src/components/EarthquakeMap.tsx`): record normalization, country
resolution, feed ingestion and the filter/search/pagination query engine.

The embedding follows the TypeScript source closely:
  * JavaScript strings are Lean `String`s; `trim`, `toLowerCase`,
    `includes` and `split(",")` are modelled structurally on `List Char`.
  * JavaScript `undefined` for a possibly-missing value is `Option`;
    the `x || y` idiom (falsy fallback, where `""` is falsy) is `jsOrStr`.
  * Numbers (`properties.mag`, coordinates) are modelled as `ℚ`; an
    absent (`undefined`) magnitude is `none`, and JS comparisons with
    `undefined` evaluate to `false` (`jsLtB` / `jsGeB`).
  * The `.map` callback in `fetchData` can throw (missing `geometry` or
    `properties` aborts the whole batch); this is the `Except` monad.
  * The external `i18n-iso-countries` library (`getAlpha2Code`,
    `getName`) is abstracted as resolver / displayName function
    parameters, since it is third-party code, not part of the repository.
-/

namespace EqViz

/-- JS `String.prototype.trim` on the character list: drop whitespace
from both ends. -/
def trimChars (cs : List Char) : List Char :=
  ((cs.dropWhile Char.isWhitespace).reverse.dropWhile Char.isWhitespace).reverse

/-- JS `s.trim()`. -/
def jsTrim (s : String) : String := String.mk (trimChars s.toList)

/-- JS `s.toLowerCase()` (ASCII range, which is all the source uses). -/
def jsToLower (s : String) : String := String.mk (s.toList.map Char.toLower)

/-- Does `hay` start with `needle`? (helper for `includes`). -/
def strStartsB : List Char → List Char → Bool
  | [], _ => true
  | _ :: _, [] => false
  | a :: as, b :: bs => a == b && strStartsB as bs

/-- Does `hay` contain `needle` as a contiguous run? (JS `includes`). -/
def strHasB (needle : List Char) : List Char → Bool
  | [] => strStartsB needle []
  | c :: t => strStartsB needle (c :: t) || strHasB needle t

/-- JS `hay.includes(needle)`. -/
def jsIncludes (hay needle : String) : Bool := strHasB needle.toList hay.toList

/-- JS `s.split(",")` on the character list: always returns at least one
segment; consecutive commas yield empty segments. -/
def splitComma : List Char → List (List Char)
  | [] => [[]]
  | c :: rest =>
    if c = ',' then [] :: splitComma rest
    else
      match splitComma rest with
      | [] => [[c]]
      | s :: ss => (c :: s) :: ss

/-- `place.split(",").map((p) => p.trim())` from the source. -/
def splitTrim (p : String) : List String :=
  (splitComma p.toList).map (fun cs => String.mk (trimChars cs))

/-- JS `o || d` where `o` is a possibly-`undefined` string and the empty
string is falsy. -/
def jsOrStr (o : Option String) (d : String) : String :=
  match o with
  | none => d
  | some s => if s = "" then d else s

/-- The canonical `Earthquake` entity from the source.  `mag`, `time`,
`lat`, `lon` are `Option` because the raw feed may omit the underlying
fields and the mapping copies them through unchecked (JS `undefined`). -/
structure Earthquake where
  id : String
  place : String
  mag : Option ℚ
  time : Option ℤ
  lat : Option ℚ
  lon : Option ℚ
  country : Option String
  deriving DecidableEq, Repr

/-- JS `m < b` where `m` may be `undefined` (comparison with `undefined`
is `false`). -/
def jsLtB (m : Option ℚ) (b : ℚ) : Bool :=
  match m with
  | some x => decide (x < b)
  | none => false

/-- JS `m >= b` where `m` may be `undefined`. -/
def jsGeB (m : Option ℚ) (b : ℚ) : Bool :=
  match m with
  | some x => decide (b ≤ x)
  | none => false

/-- The `filter` union type `"all" | "0-3" | "3-5" | "5-7" | "7+"`. -/
inductive MagFilter where
  | all
  | r0_3
  | r3_5
  | r5_7
  | r7plus
  deriving DecidableEq, Repr

/-- The magnitude predicate each `switch` case of `applyFilter` filters
by (`all` filters nothing, i.e. keeps everything). -/
def magPredB : MagFilter → Earthquake → Bool
  | .all, _ => true
  | .r0_3, e => jsLtB e.mag 3
  | .r3_5, e => jsGeB e.mag 3 && jsLtB e.mag 5
  | .r5_7, e => jsGeB e.mag 5 && jsLtB e.mag 7
  | .r7plus, e => jsGeB e.mag 7

/-- The search predicate of `applyFilter`: skipped when the trimmed
search term is empty, otherwise a case-insensitive substring test
against `place`. -/
def searchPredB (searchTerm : String) (e : Earthquake) : Bool :=
  if jsTrim searchTerm = "" then true
  else jsIncludes (jsToLower e.place) (jsToLower searchTerm)

/-- `applyFilter` from the source: the `switch` on the range filter,
then the conditional search filter. -/
def applyFilter (filter : MagFilter) (searchTerm : String)
    (eqs : List Earthquake) : List Earthquake :=
  let filtered : List Earthquake :=
    match filter with
    | .all => eqs
    | .r0_3 => eqs.filter (fun e => jsLtB e.mag 3)
    | .r3_5 => eqs.filter (fun e => jsGeB e.mag 3 && jsLtB e.mag 5)
    | .r5_7 => eqs.filter (fun e => jsGeB e.mag 5 && jsLtB e.mag 7)
    | .r7plus => eqs.filter (fun e => jsGeB e.mag 7)
  if jsTrim searchTerm ≠ "" then
    filtered.filter (fun e => jsIncludes (jsToLower e.place) (jsToLower searchTerm))
  else filtered

/-- `const pageSize = 10`. -/
def pageSize : Nat := 10

/-- `paginatedData = filteredData.slice(0, page * pageSize)`. -/
def paginatedData (eqs : List Earthquake) (filter : MagFilter)
    (searchTerm : String) (page : Nat) : List Earthquake :=
  (applyFilter filter searchTerm eqs).take (page * pageSize)

/-- The last trimmed comma-segment of a place string
(`parts[parts.length - 1]`). -/
def lastSegOf (p : String) : String := (splitTrim p).getLastD ""

/-- `countries.getAlpha2Code(lastPart, "en") || undefined` applied to a
place string, abstracted over the library lookup `resolver`: only
attempted when the split yields more than one segment. -/
def countryOf (resolver : String → Option String) (place : String) :
    Option String :=
  if 1 < (splitTrim place).length then
    match resolver (lastSegOf place) with
    | some c => if c = "" then none else some c
    | none => none
  else none

/-- `formatCountry` from the source, abstracted over the library's
`getName` (`displayName`): a truthy `country` uses the localized name
with the raw code as fallback; otherwise the trailing place segment with
"Unknown" as fallback. -/
def formatCountry (displayName : String → String → Option String)
    (language : String) (eq : Earthquake) : String :=
  match eq.country with
  | some c =>
    if c = "" then jsOrStr (some (lastSegOf eq.place)) "Unknown"
    else jsOrStr (displayName c language) c
  | none => jsOrStr (some (lastSegOf eq.place)) "Unknown"

/-- The `properties` object of one raw feed feature; every field may be
`undefined`. -/
structure RawProps where
  place : Option String
  mag : Option ℚ
  time : Option ℤ
  deriving DecidableEq, Repr

/-- One raw feed feature.  `geometry = none` models a missing
`geometry` or `geometry.coordinates` (the destructuring throws);
`props = none` models a missing `properties` object (the field access
throws).  A present-but-short coordinate array yields `undefined`
components, hence `List ℚ` with `get?`. -/
structure RawFeature where
  id : String
  geometry : Option (List ℚ)
  props : Option RawProps
  deriving DecidableEq, Repr

/-- The `.map` callback of `fetchData` on one feature.  `Except.error`
is a thrown TypeError (missing `geometry`/`coordinates`/`properties`),
which aborts the whole batch; every other shape produces an event. -/
def normalizeRecord (resolver : String → Option String)
    (f : RawFeature) : Except Unit Earthquake :=
  match f.geometry, f.props with
  | some coords, some props =>
    let place := jsOrStr props.place "Unknown"
    .ok { id := f.id
          place := place
          mag := props.mag
          time := props.time
          lat := coords.get? 1
          lon := coords.get? 0
          country := countryOf resolver place }
  | _, _ => .error ()

/-- `data.features.map(...)` with JS throw semantics: the features are
normalized left to right and a thrown error aborts the whole batch. -/
def normalizeBatch (resolver : String → Option String) :
    List RawFeature → Except Unit (List Earthquake)
  | [] => .ok []
  | f :: fs =>
    match normalizeRecord resolver f with
    | .error e => .error e
    | .ok ev =>
      match normalizeBatch resolver fs with
      | .error e => .error e
      | .ok evs => .ok (ev :: evs)

/-- The outcome of the `fetch`/`res.json()` phase of `fetchData`:
a network error (the `await` throws), a non-success HTTP status
(`!res.ok`, carrying `res.statusText`), or a parsed body whose
`features` field may be missing. -/
inductive FetchResponse where
  | netError
  | httpError (statusText : String)
  | ok (features : Option (List RawFeature))
  deriving DecidableEq, Repr

/-- The state `fetchData` leaves behind: the `error` message state and
the `earthquakes` collection state. -/
structure FetchResult where
  error : Option String
  earthquakes : List Earthquake
  deriving DecidableEq, Repr

/-- `fetchData` from the source as a function of the response.
`eqLabel` is `translations[language].earthquakeData` (the locale table
lives outside the core).  A non-ok status throws
`Failed to fetch data: ${res.statusText}`, and the `catch` block turns
any thrown error into the generic "failed to load." message with an
empty collection; missing or empty `features` yields the distinct
"not available." message with an empty collection. -/
def fetchData (resolver : String → Option String) (eqLabel : String)
    (resp : FetchResponse) : FetchResult :=
  match resp with
  | .netError => ⟨some (eqLabel ++ " failed to load."), []⟩
  | .httpError _ => ⟨some (eqLabel ++ " failed to load."), []⟩
  | .ok none => ⟨some (eqLabel ++ " not available."), []⟩
  | .ok (some feats) =>
    if feats.length = 0 then ⟨some (eqLabel ++ " not available."), []⟩
    else
      match normalizeBatch resolver feats with
      | .ok evs => ⟨none, evs⟩
      | .error _ => ⟨some (eqLabel ++ " failed to load."), []⟩

/-! ### Concrete fixtures used by witnesses and counterexamples -/

/-- A tiny concrete stand-in for the `getAlpha2Code` table. -/
def resolverJP : String → Option String :=
  fun s => if s = "Japan" then some "JP" else none

/-- A well-formed raw feature. -/
def featA : RawFeature :=
  { id := "a"
    geometry := some [139.7, 35.7]
    props := some { place := some "Tokyo, Japan", mag := some 4, time := some 1700000000000 } }

/-- A raw feature whose `properties.mag` is missing. -/
def featNoMag : RawFeature :=
  { id := "b"
    geometry := some [10, 20]
    props := some { place := some "Osaka, Japan", mag := none, time := some 1700000000001 } }

/-- The event `featA` normalizes to. -/
def evA : Earthquake :=
  { id := "a", place := "Tokyo, Japan", mag := some 4
    time := some 1700000000000, lat := some 35.7, lon := some 139.7
    country := some "JP" }

/-- The event `featNoMag` normalizes to (magnitude `undefined`). -/
def evB : Earthquake :=
  { id := "b", place := "Osaka, Japan", mag := none
    time := some 1700000000001, lat := some 20, lon := some 10
    country := some "JP" }

/-- A bare event with magnitude 4, used to instantiate query-engine
theorems. -/
def ev4 : Earthquake :=
  { id := "w", place := "Fiji region", mag := some 4
    time := some 0, lat := some 0, lon := some 0, country := none }

/-- A raw feature whose `geometry` (or `geometry.coordinates`) is
missing, so the `.map` callback throws on it. -/
def featNoGeom : RawFeature :=
  { id := "d"
    geometry := none
    props := some { place := some "Kyoto, Japan", mag := some 2, time := some 0 } }

/-- A tiny concrete stand-in for the `getName` localized-name table. -/
def dnJP : String → String → Option String :=
  fun c _ => if c = "JP" then some "Japan" else none

/-! ### Helper lemmas -/

/-- Two successive filters collapse to the conjunction, keeping the
first predicate on the left. -/
theorem filter_filter_and {α : Type} (p q : α → Bool) (l : List α) :
    (l.filter p).filter q = l.filter (fun a => p a && q a) := by
  induction l with
  | nil => rfl
  | cons a t ih =>
    by_cases hp : p a <;> by_cases hq : q a <;>
      simp [List.filter_cons, hp, hq, ih]

/-- A place string with no comma never resolves to a country. -/
theorem countryOf_unknown (r : String → Option String) :
    countryOf r "Unknown" = none := rfl

/-- A successful batch normalization relates input features to output
events pointwise and in order. -/
theorem normalizeBatch_forall2 (r : String → Option String) :
    ∀ (feats : List RawFeature) (evs : List Earthquake),
      normalizeBatch r feats = .ok evs →
      List.Forall₂ (fun f ev => normalizeRecord r f = .ok ev) feats evs := by
  intro feats
  induction feats with
  | nil =>
    intro evs h
    rw [show normalizeBatch r [] = .ok [] from rfl] at h
    injection h with h'
    rw [← h']
    exact List.Forall₂.nil
  | cons f fs ih =>
    intro evs h
    unfold normalizeBatch at h
    cases hr : normalizeRecord r f with
    | error e => rw [hr] at h; exact absurd h (by simp)
    | ok ev =>
      rw [hr] at h
      cases hb : normalizeBatch r fs with
      | error e => rw [hb] at h; exact absurd h (by simp)
      | ok evs2 =>
        rw [hb] at h
        injection h with h'
        rw [← h']
        exact List.Forall₂.cons hr (ih evs2 hb)

/-- A record with a missing `geometry` or `properties` makes its
normalization throw. -/
theorem normalizeRecord_error_of_malformed (r : String → Option String)
    (f : RawFeature) (hbad : f.geometry = none ∨ f.props = none) :
    normalizeRecord r f = .error () := by
  cases hg : f.geometry with
  | none =>
    cases hp : f.props with
    | none => simp [normalizeRecord, hg, hp]
    | some p => simp [normalizeRecord, hg, hp]
  | some coords =>
    cases hp : f.props with
    | none => simp [normalizeRecord, hg, hp]
    | some p =>
      rcases hbad with h | h
      · rw [hg] at h; exact absurd h (by simp)
      · rw [hp] at h; exact absurd h (by simp)

/-- One malformed record aborts the whole batch. -/
theorem normalizeBatch_error_of_malformed (r : String → Option String) :
    ∀ (feats : List RawFeature) (f : RawFeature),
      f ∈ feats → (f.geometry = none ∨ f.props = none) →
      normalizeBatch r feats = .error () := by
  intro feats
  induction feats with
  | nil =>
    intro f hf
    exact absurd hf (List.not_mem_nil f)
  | cons g gs ih =>
    intro f hf hbad
    unfold normalizeBatch
    rcases List.mem_cons.mp hf with heq | hmem
    · rw [← heq, normalizeRecord_error_of_malformed r f hbad]
    · cases hr : normalizeRecord r g with
      | error e => cases e; rfl
      | ok ev => rw [ih f hmem hbad]

/-! ### Claim theorems -/

/-- C2: the query with `rangeFilter = all` and empty search text is the
identity on the event collection — `applyFilter` returns the input
unchanged in order and length. -/
theorem applyFilter_all_empty_id (eqs : List Earthquake) :
    applyFilter .all "" eqs = eqs := rfl

/-- C3: an event with magnitude `m` is kept by the "3-5" range filter
iff `3 ≤ m < 5`, and for `m ≥ 0` exactly one of the four magnitude
buckets accepts the event (the buckets partition the axis above 0 with
no overlap and no gap, half-open at the upper bound). -/
theorem range_3_5_bucket (e : Earthquake) (m : ℚ) (eqs : List Earthquake)
    (hm : e.mag = some m) (_h0 : 0 ≤ m) :
    (e ∈ applyFilter .r3_5 "" eqs ↔ e ∈ eqs ∧ (3 ≤ m ∧ m < 5)) ∧
    ([MagFilter.r0_3, MagFilter.r3_5, MagFilter.r5_7, MagFilter.r7plus].countP
        (fun fl => magPredB fl e)) = 1 := by
  constructor
  · show e ∈ eqs.filter (fun x => jsGeB x.mag 3 && jsLtB x.mag 5) ↔ _
    rw [List.mem_filter]
    simp [jsGeB, jsLtB, hm, and_assoc]
  · simp only [List.countP_cons, List.countP_nil, magPredB, jsGeB, jsLtB, hm]
    rcases lt_or_le m 3 with h3 | h3
    · have h5 : m < 5 := h3.trans (by norm_num)
      have h7 : m < 7 := h3.trans (by norm_num)
      simp [h3, not_le.mpr h3, not_le.mpr h5, not_le.mpr h7]
    · rcases lt_or_le m 5 with h5 | h5
      · have h7 : m < 7 := h5.trans (by norm_num)
        simp [h3, h5, not_lt.mpr h3, not_le.mpr h5, not_le.mpr h7]
      · rcases lt_or_le m 7 with h7 | h7
        · simp [h5, h7, not_lt.mpr h3, not_lt.mpr h5, not_le.mpr h7]
        · simp [not_lt.mpr h3, not_lt.mpr h5, not_lt.mpr h7, h7]

/-- C3 witness: the bucket characterization at a concrete event of
magnitude 4. -/
theorem range_3_5_bucket_witness :
    (ev4 ∈ applyFilter .r3_5 "" [ev4] ↔ ev4 ∈ [ev4] ∧ ((3:ℚ) ≤ 4 ∧ (4:ℚ) < 5)) ∧
    ([MagFilter.r0_3, MagFilter.r3_5, MagFilter.r5_7, MagFilter.r7plus].countP
        (fun fl => magPredB fl ev4)) = 1 :=
  range_3_5_bucket ev4 4 [ev4] rfl (by norm_num)

/-- C4: the query applies the range filter first and the search filter
second, the combination is the AND of the two predicates, and the
output is a sublist of the input (stable filtering — the original
relative order is preserved, no re-sorting). -/
theorem applyFilter_and_stable (fl : MagFilter) (s : String)
    (eqs : List Earthquake) :
    applyFilter fl s eqs = (eqs.filter (magPredB fl)).filter (searchPredB s) ∧
    applyFilter fl s eqs = eqs.filter (fun e => magPredB fl e && searchPredB s e) ∧
    List.Sublist (applyFilter fl s eqs) eqs := by
  have h1 : applyFilter fl s eqs = (eqs.filter (magPredB fl)).filter (searchPredB s) := by
    by_cases hs : jsTrim s = "" <;>
      cases fl <;>
        simp [applyFilter, magPredB, searchPredB, hs]
  refine ⟨h1, ?_, ?_⟩
  · rw [h1, filter_filter_and]
  · rw [h1, filter_filter_and]
    exact List.filter_sublist eqs

/-- C5: the search filter is case-insensitive (searching "Japan" and
"japan" yield identical results on every collection), and a search
text that trims to the empty string is equivalent to no search filter
at all. -/
theorem search_case_insensitive_blank :
    (∀ (fl : MagFilter) (eqs : List Earthquake),
      applyFilter fl "Japan" eqs = applyFilter fl "japan" eqs) ∧
    (∀ (fl : MagFilter) (s : String) (eqs : List Earthquake),
      jsTrim s = "" → applyFilter fl s eqs = applyFilter fl "" eqs) := by
  constructor
  · intro fl eqs; rfl
  · intro fl s eqs hs
    simp [applyFilter, hs, show jsTrim "" = "" from rfl]

/-- C5 witness: concrete instances — searching "Japan" and "japan",
and a whitespace-only search term. -/
theorem search_case_insensitive_blank_witness :
    applyFilter .all "Japan" [evA, ev4] = applyFilter .all "japan" [evA, ev4] ∧
    applyFilter .all "  " [ev4] = applyFilter .all "" [ev4] :=
  ⟨search_case_insensitive_blank.1 .all [evA, ev4],
   search_case_insensitive_blank.2 .all "  " [ev4] rfl⟩

/-- C6: the visible window is exactly the first `page * pageSize`
elements of the filtered collection, and windowing is monotonic: with
filters fixed, the window for `n` pages is the `n * pageSize`-prefix of
the window for `m ≥ n` pages (same order, same content). -/
theorem paginatedData_window_monotone (eqs : List Earthquake)
    (fl : MagFilter) (s : String) (n m : Nat) (h : n ≤ m) :
    paginatedData eqs fl s n = (applyFilter fl s eqs).take (n * pageSize) ∧
    paginatedData eqs fl s n = (paginatedData eqs fl s m).take (n * pageSize) := by
  refine ⟨rfl, ?_⟩
  unfold paginatedData
  rw [List.take_take, Nat.min_eq_left (Nat.mul_le_mul_right pageSize h)]

/-- C6 witness: the windowing equations at one and two pages over a
concrete collection. -/
theorem paginatedData_window_monotone_witness :
    paginatedData [ev4] .all "" 1 = (applyFilter .all "" [ev4]).take (1 * pageSize) ∧
    paginatedData [ev4] .all "" 1 = (paginatedData [ev4] .all "" 2).take (1 * pageSize) :=
  paginatedData_window_monotone [ev4] .all "" 1 2 (by decide)

/-- C7: country resolution splits `place` on commas and trims each
segment; with at most one segment no resolution is attempted
(`countryCode` absent); with more than one segment the resolver is
applied to the last segment — a successful lookup is kept, a failed
lookup leaves `countryCode` absent without error; and resolution
depends only on the trailing segment, so "10km SE of Tokyo, Japan" and
"20km N of Osaka, Japan" resolve to the same country code. -/
theorem countryOf_tail_resolution :
    (∀ (r : String → Option String) (p : String),
      (splitTrim p).length ≤ 1 → countryOf r p = none) ∧
    (∀ (r : String → Option String) (p : String) (c : String),
      1 < (splitTrim p).length → r (lastSegOf p) = some c → c ≠ "" →
      countryOf r p = some c) ∧
    (∀ (r : String → Option String) (p : String),
      1 < (splitTrim p).length → r (lastSegOf p) = none →
      countryOf r p = none) ∧
    (∀ r : String → Option String,
      countryOf r "10km SE of Tokyo, Japan" =
        countryOf r "20km N of Osaka, Japan") := by
  refine ⟨?_, ?_, ?_, ?_⟩
  · intro r p h
    simp [countryOf, not_lt.mpr h]
  · intro r p c h hr hc
    simp [countryOf, h, hr, hc]
  · intro r p h hr
    simp [countryOf, h, hr]
  · intro r
    rfl

/-- C7 witness: concrete resolutions — a single-segment place, a
successful lookup, a failed lookup, and the two-place purity
instance. -/
theorem countryOf_tail_resolution_witness :
    countryOf resolverJP "Unknown" = none ∧
    countryOf resolverJP "10km SE of Tokyo, Japan" = some "JP" ∧
    countryOf resolverJP "10km SE of Paris, France" = none ∧
    countryOf resolverJP "10km SE of Tokyo, Japan" =
      countryOf resolverJP "20km N of Osaka, Japan" :=
  ⟨countryOf_tail_resolution.1 resolverJP "Unknown" (by decide),
   countryOf_tail_resolution.2.1 resolverJP "10km SE of Tokyo, Japan" "JP"
     (by decide) rfl (by decide),
   countryOf_tail_resolution.2.2.1 resolverJP "10km SE of Paris, France"
     (by decide) rfl,
   countryOf_tail_resolution.2.2.2 resolverJP⟩

/-- C9: `formatCountry` returns the localized display name when a
(truthy) country code is present, falls back to the stored code when
the locale lookup fails, and otherwise re-derives the trailing trimmed
comma-segment of `place`, defaulting to "Unknown" when that trailing
segment is empty. -/
theorem formatCountry_spec (dn : String → String → Option String)
    (lang : String) (eq : Earthquake) (c n : String) :
    (eq.country = some c → c ≠ "" → dn c lang = some n → n ≠ "" →
      formatCountry dn lang eq = n) ∧
    (eq.country = some c → c ≠ "" → dn c lang = none →
      formatCountry dn lang eq = c) ∧
    (eq.country = none →
      formatCountry dn lang eq =
        (if lastSegOf eq.place = "" then "Unknown" else lastSegOf eq.place)) := by
  refine ⟨?_, ?_, ?_⟩
  · intro hc hne hd hn
    simp [formatCountry, hc, hne, hd, jsOrStr, hn]
  · intro hc hne hd
    simp [formatCountry, hc, hne, hd, jsOrStr]
  · intro hc
    simp [formatCountry, hc, jsOrStr]

/-- C9 witness: a localized name for `evA` (country "JP"), the raw-code
fallback under an always-failing lookup, and the place-tail fallback
for a country-less event. -/
theorem formatCountry_spec_witness :
    formatCountry dnJP "en" evA = "Japan" ∧
    formatCountry (fun _ _ => none) "en" evA = "JP" ∧
    formatCountry dnJP "en" ev4 =
      (if lastSegOf ev4.place = "" then "Unknown" else lastSegOf ev4.place) :=
  ⟨(formatCountry_spec dnJP "en" evA "JP" "Japan").1 rfl (by decide) rfl (by decide),
   (formatCountry_spec (fun _ _ => none) "en" evA "JP" "Japan").2.1 rfl (by decide) rfl,
   (formatCountry_spec dnJP "en" ev4 "JP" "Japan").2.2 rfl⟩

/-- C10: a raw record whose `properties.place` is the empty string or
missing (both falsy) normalizes to an Event whose `place` is the
sentinel "Unknown" and whose `countryCode` is absent, since "Unknown"
has no comma. -/
theorem normalize_falsy_place (r : String → Option String)
    (f : RawFeature) (props : RawProps) (coords : List ℚ)
    (hp : f.props = some props) (hg : f.geometry = some coords)
    (hplace : props.place = some "" ∨ props.place = none) :
    normalizeRecord r f =
      .ok { id := f.id, place := "Unknown", mag := props.mag,
            time := props.time, lat := coords.get? 1, lon := coords.get? 0,
            country := none } := by
  rcases hplace with h | h <;>
    simp [normalizeRecord, hp, hg, h, jsOrStr, countryOf_unknown]

/-- C10 witness: a concrete record with `place = ""` normalizes to an
"Unknown"-place Event with no country. -/
theorem normalize_falsy_place_witness :
    normalizeRecord resolverJP
        { id := "c", geometry := some [1, 2],
          props := some { place := some "", mag := some 1, time := some 0 } } =
      .ok { id := "c", place := "Unknown", mag := some 1, time := some 0,
            lat := some 2, lon := some 1, country := none } :=
  normalize_falsy_place resolverJP
    { id := "c", geometry := some [1, 2],
      props := some { place := some "", mag := some 1, time := some 0 } }
    { place := some "", mag := some 1, time := some 0 } [1, 2]
    rfl rfl (Or.inl rfl)

/-- C1 counterexample: a batch containing a record whose
`properties.mag` is missing does NOT drop that record — the batch of
two features normalizes to two events (not one), and the mag-less
record is emitted as an Event with an undefined magnitude. -/
theorem missing_mag_not_dropped_cex :
    normalizeBatch resolverJP [featA, featNoMag] = .ok [evA, evB] ∧
    evB.mag = none ∧
    (normalizeBatch resolverJP [featA, featNoMag]).map List.length ≠ .ok 1 := by
  refine ⟨rfl, rfl, ?_⟩
  intro h
  rw [show (normalizeBatch resolverJP [featA, featNoMag]).map List.length =
        Except.ok 2 from rfl] at h
  exact absurd h (by simp)

/-- C1 amended: normalization never rejects an individual record — a
successful batch emits exactly one Event per raw feature, pointwise
and in order (`Forall₂`); any feature with `geometry` and `properties`
present is emitted, copying `properties.mag` through unchecked (a
missing mag yields an Event with an undefined magnitude); and a
feature missing `geometry` or `properties` aborts normalization of the
whole batch, which `fetchData` surfaces as the generic fetch-failure
state with an empty collection — not as a dropped record. -/
theorem normalizeBatch_keeps_all (r : String → Option String) :
    (∀ (feats : List RawFeature) (evs : List Earthquake),
      normalizeBatch r feats = .ok evs → evs.length = feats.length) ∧
    (∀ (feats : List RawFeature) (evs : List Earthquake),
      normalizeBatch r feats = .ok evs →
      List.Forall₂ (fun f ev => normalizeRecord r f = .ok ev) feats evs) ∧
    (∀ (f : RawFeature) (coords : List ℚ) (props : RawProps),
      f.geometry = some coords → f.props = some props →
      normalizeRecord r f =
        .ok { id := f.id, place := jsOrStr props.place "Unknown",
              mag := props.mag, time := props.time,
              lat := coords.get? 1, lon := coords.get? 0,
              country := countryOf r (jsOrStr props.place "Unknown") }) ∧
    (∀ (feats : List RawFeature) (f : RawFeature),
      f ∈ feats → (f.geometry = none ∨ f.props = none) →
      normalizeBatch r feats = .error ()) ∧
    (∀ (feats : List RawFeature) (f : RawFeature) (label : String),
      f ∈ feats → (f.geometry = none ∨ f.props = none) →
      fetchData r label (.ok (some feats)) =
        ⟨some (label ++ " failed to load."), []⟩) := by
  refine ⟨?_, normalizeBatch_forall2 r, ?_, normalizeBatch_error_of_malformed r, ?_⟩
  · intro feats evs h
    exact (normalizeBatch_forall2 r feats evs h).length_eq.symm
  · intro f coords props hg hp
    simp [normalizeRecord, hg, hp]
  · intro feats f label hf hbad
    have herr := normalizeBatch_error_of_malformed r feats f hf hbad
    have hlen : ¬ feats.length = 0 := by
      cases feats with
      | nil => exact absurd hf (List.not_mem_nil f)
      | cons a l => simp
    simp [fetchData, hlen, herr]

/-- C1 witness: the two-feature batch keeps both records pointwise and
in order, the mag-less feature normalizes to `evB` (whose magnitude is
`none`), and a batch containing a geometry-less feature aborts whole,
surfacing as the generic fetch failure with an empty collection. -/
theorem normalizeBatch_keeps_all_witness :
    ([evA, evB].length = [featA, featNoMag].length) ∧
    List.Forall₂ (fun f ev => normalizeRecord resolverJP f = .ok ev)
      [featA, featNoMag] [evA, evB] ∧
    normalizeRecord resolverJP featNoMag = Except.ok evB ∧
    normalizeBatch resolverJP [featA, featNoGeom] = .error () ∧
    fetchData resolverJP "Earthquake Data" (.ok (some [featA, featNoGeom])) =
      ⟨some ("Earthquake Data" ++ " failed to load."), []⟩ :=
  ⟨(normalizeBatch_keeps_all resolverJP).1 [featA, featNoMag] [evA, evB] rfl,
   (normalizeBatch_keeps_all resolverJP).2.1 [featA, featNoMag] [evA, evB] rfl,
   (normalizeBatch_keeps_all resolverJP).2.2.1 featNoMag [10, 20]
     { place := some "Osaka, Japan", mag := none, time := some 1700000000001 }
     rfl rfl,
   (normalizeBatch_keeps_all resolverJP).2.2.2.1 [featA, featNoGeom] featNoGeom
     (by simp) (Or.inl rfl),
   (normalizeBatch_keeps_all resolverJP).2.2.2.2 [featA, featNoGeom] featNoGeom
     "Earthquake Data" (by simp) (Or.inl rfl)⟩

/-- C8 counterexample: a non-success HTTP status does NOT surface the
endpoint's status text — the surfaced error message is the generic
localized "failed to load." text, it does not contain the status text,
and the resulting state is independent of the status text. -/
theorem fetch_status_text_cex :
    fetchData resolverJP "Earthquake Data" (.httpError "Internal Server Error") =
      ⟨some "Earthquake Data failed to load.", []⟩ ∧
    jsIncludes "Earthquake Data failed to load." "Internal Server Error" = false ∧
    fetchData resolverJP "Earthquake Data" (.httpError "Internal Server Error") =
      fetchData resolverJP "Earthquake Data" (.httpError "Not Found") := by
  refine ⟨by decide, by decide, rfl⟩

/-- C8 amended: ingestion distinguishes its two failure modes and
resets the collection on both — a network error or non-success HTTP
status surfaces as the generic localized "failed to load." message
(the thrown error carries the status text but the surfaced message
does not) with the collection reset to empty, while a successful
response with a missing or empty feature list surfaces as the distinct
"not available." message (not an empty successful collection), also
with the collection reset to empty; the two messages always differ. -/
theorem fetch_failure_modes (r : String → Option String)
    (label st : String) :
    fetchData r label .netError = ⟨some (label ++ " failed to load."), []⟩ ∧
    fetchData r label (.httpError st) = ⟨some (label ++ " failed to load."), []⟩ ∧
    fetchData r label (.ok none) = ⟨some (label ++ " not available."), []⟩ ∧
    fetchData r label (.ok (some [])) = ⟨some (label ++ " not available."), []⟩ ∧
    label ++ " failed to load." ≠ label ++ " not available." := by
  refine ⟨rfl, rfl, rfl, rfl, ?_⟩
  intro h
  have hl := congrArg String.length h
  rw [String.length_append, String.length_append,
    show (" failed to load." : String).length = 16 from rfl,
    show (" not available." : String).length = 15 from rfl] at hl
  omega

end EqViz
